import Mathlib

/-!
A shallow embedding of the python-plugwise wire codec (src/plugwise/protocol.py)
and of the response reader (src/plugwise/api.py), together with theorems about
serialization, deserialization and the read loop.

Python 2 byte strings are modelled as `List Char` (every byte is one `Char`
whose code point is the byte value).  Python's unbounded signed integers are
modelled as `Int`; Python 2 floor division `//` (and `/` on two ints) is
`Int.fdiv`.
-/

set_option maxRecDepth 40000

namespace Plugwise

/-- protocol.py: `PlugwiseMessage.PACKET_HEADER = '\x05\x05\x03\x03'`. -/
def PACKET_HEADER : List Char := ['\x05', '\x05', '\x03', '\x03']

/-- protocol.py: `PlugwiseMessage.PACKET_FOOTER = '\x0d\x0a'`. -/
def PACKET_FOOTER : List Char := ['\x0D', '\x0A']

/-- Value of one hexadecimal digit character, `none` for a non-hex character.
Models the per-character acceptance of Python's `int(val, 16)`.  (Python's
`int` additionally tolerates surrounding whitespace, a sign and a `0x` prefix;
protocol frames never contain those, and the model covers the plain
hex-digit strings that actually occur on the wire.) -/
def hexVal (c : Char) : Option Nat :=
  if '0' ≤ c ∧ c ≤ '9' then some (c.toNat - 48)
  else if 'A' ≤ c ∧ c ≤ 'F' then some (c.toNat - 55)
  else if 'a' ≤ c ∧ c ≤ 'f' then some (c.toNat - 87)
  else none

/-- Accumulator loop of base-16 string parsing. -/
def parseHexCore : Nat → List Char → Option Nat
  | acc, [] => some acc
  | acc, c :: cs =>
    match hexVal c with
    | none => none
    | some d => parseHexCore (16 * acc + d) cs

/-- Model of Python's `int(val, 16)`: fails (raises `ValueError`) on the empty
string and on any non-hex character; otherwise the base-16 value. -/
def parseHex (s : List Char) : Option Nat :=
  match s with
  | [] => none
  | _ => parseHexCore 0 s

/-- The character `"%X"` uses for one hex digit: `0`-`9` then uppercase `A`-`F`. -/
def hexDigitChar (n : Nat) : Char :=
  if n < 10 then Char.ofNat (48 + n) else Char.ofNat (55 + n)

/-- Big-endian hex digits of `n` (fuel-indexed so that the recursion is
structural; `natToHex` supplies enough fuel). -/
def natToHexAux : Nat → Nat → List Char
  | 0, _ => []
  | fuel + 1, n =>
    if n < 16 then [hexDigitChar n]
    else natToHexAux fuel (n / 16) ++ [hexDigitChar (n % 16)]

/-- Hex digits of `n`, most significant first, as `"%X" % n` renders them
(in particular `natToHex 0 = ['0']`). -/
def natToHex (n : Nat) : List Char := natToHexAux (n + 1) n

/-- Zero-padding on the left to width `w` (never truncates). -/
def leftPadZero (w : Nat) (s : List Char) : List Char :=
  List.replicate (w - s.length) '0' ++ s

/-- protocol.py, `Int.serialize`: `"%0\x7bw\x7dX" % value` — uppercase hex,
zero-padded to width `w`, longer if the value needs more digits.  For a
negative value Python renders a `-` sign followed by the zero-padded digits
of the absolute value; no legal protocol value is negative. -/
def intSerialize (w : Nat) (v : Int) : List Char :=
  if v < 0 then
    let digs := natToHex v.natAbs
    '-' :: (List.replicate (w - 1 - digs.length) '0' ++ digs)
  else leftPadZero w (natToHex v.toNat)

/-- Uppercase-hex-digit predicate (`0`-`9` or `A`-`F`). -/
def isUpperHexDigit (c : Char) : Bool :=
  (decide ('0' ≤ c) && decide (c ≤ '9')) || (decide ('A' ≤ c) && decide (c ≤ 'F'))

/-- One shift step of the MSB-first CRC-16 with polynomial 0x11021
(x^16 + x^12 + x^5 + 1): shift left, xor in 0x1021 when the top bit was set,
keep 16 bits. -/
def crcShift (c : Nat) : Nat :=
  if 32768 ≤ c then ((c * 2) ^^^ 4129) % 65536 else (c * 2) % 65536

/-- Feed one byte into the CRC register: xor the byte into the top 8 bits,
then run eight shift steps. -/
def crcByte (c b : Nat) : Nat :=
  crcShift (crcShift (crcShift (crcShift (crcShift (crcShift (crcShift (crcShift (c ^^^ b * 256))))))))

/-- protocol.py: `crc_fun = crcmod.mkCrcFun(0x11021, rev=False, initCrc=0x0000,
xorOut=0x0000)` — CRC-16, polynomial 0x11021, no input/output reflection,
initial value 0, no final xor (the CRC-16/XMODEM parameter set), over the
bytes of `s`. -/
def crc_fun (s : List Char) : Nat :=
  s.foldl (fun c ch => crcByte c (ch.toNat % 256)) 0

/-- protocol.py, `PlugwiseMessage.calculate_checksum`: `"%04X" % crc_fun(s)`. -/
def calculate_checksum (s : List Char) : List Char :=
  intSerialize 4 (Int.ofNat (crc_fun s))

/-- The two `CompositeType` subclasses instantiated by the catalog.  Every
composite field the source ever builds (`DateTime`, `Time`) has scalar
children, so composites are modelled as one level over scalars. -/
inductive CompKind where
  | dateTime
  | time
deriving DecidableEq

/-- A scalar field object: its current `value` and declared `length`
(protocol.py classes `String`, `Int`, `Year2k`, `UnixTimestamp`, `Float`,
`LogAddr`).  The decoded `unixTs` value `n` stands for
`datetime.datetime.fromtimestamp(n)`; the decoded `float` value is the raw
32-bit pattern whose IEEE-754 reading Python's `struct.unpack("!f", ...)`
returns (no claim inspects the numeric reading). -/
inductive SField where
  | str (value : List Char) (length : Nat)
  | int (value : Int) (length : Nat)
  | year2k (value : Int) (length : Nat)
  | unixTs (value : Int) (length : Nat)
  | float (bits : Nat) (length : Nat)
  | logAddr (value : Int) (length : Nat)
deriving DecidableEq

/-- The `value` a composite carries after `unserialize`: a
`datetime.datetime(year, month, day, hour, minute)` or a
`datetime.time(hour, minute, second)`. -/
inductive DTVal where
  | dt (year month day hour minute : Int)
  | tod (hour minute second : Int)
deriving DecidableEq

/-- A field object: a scalar, or a composite with its child objects and its
(initially unset) computed value. -/
inductive Field where
  | scalar (f : SField)
  | composite (kind : CompKind) (contents : List SField) (value : Option DTVal)
deriving DecidableEq

/-- Declared shape of a scalar field: which class it is and its length. -/
inductive SFieldSpec where
  | str (length : Nat)
  | int (length : Nat)
  | year2k (length : Nat)
  | unixTs (length : Nat)
  | float (length : Nat)
  | logAddr (length : Nat)
deriving DecidableEq

/-- Declared shape of a field.  A response type's `params` list is a list of
these; decoding reads only the shape and overwrites the values. -/
inductive FieldSpec where
  | scalar (s : SFieldSpec)
  | composite (kind : CompKind) (children : List SFieldSpec)
deriving DecidableEq

/-- protocol.py, `BaseType.__len__` / `Int.__init__` etc.: the declared length
attribute of a scalar object. -/
def SField.len : SField → Nat
  | .str _ w => w
  | .int _ w => w
  | .year2k _ w => w
  | .unixTs _ w => w
  | .float _ w => w
  | .logAddr _ w => w

/-- protocol.py, `CompositeType.__len__`: `sum(len(x) for x in self.contents)`. -/
def contentsLen : List SField → Nat
  | [] => 0
  | f :: fs => f.len + contentsLen fs

/-- Length of a field object (`BaseType.__len__` / `CompositeType.__len__`). -/
def Field.len : Field → Nat
  | .scalar f => f.len
  | .composite _ cs _ => contentsLen cs

/-- Declared length of a scalar shape. -/
def SFieldSpec.len : SFieldSpec → Nat
  | .str w => w
  | .int w => w
  | .year2k w => w
  | .unixTs w => w
  | .float w => w
  | .logAddr w => w

/-- Sum of the declared lengths of a list of scalar shapes. -/
def specContentsLen : List SFieldSpec → Nat
  | [] => 0
  | s :: ss => s.len + specContentsLen ss

/-- Declared length of a field shape. -/
def FieldSpec.len : FieldSpec → Nat
  | .scalar s => s.len
  | .composite _ cs => specContentsLen cs

/-- Sum of the declared lengths of a response's `params`
(`arglen` in `PlugwiseResponse.__len__`). -/
def paramsLen : List FieldSpec → Nat
  | [] => 0
  | p :: ps => p.len + paramsLen ps

/-- The shape of a scalar object. -/
def SField.spec : SField → SFieldSpec
  | .str _ w => .str w
  | .int _ w => .int w
  | .year2k _ w => .year2k w
  | .unixTs _ w => .unixTs w
  | .float _ w => .float w
  | .logAddr _ w => .logAddr w

/-- The shape of a field object. -/
def Field.spec : Field → FieldSpec
  | .scalar f => .scalar f.spec
  | .composite k cs _ => .composite k (cs.map SField.spec)

/-- A value is legal for encoding when the source renders it at exactly the
declared width: strings of exactly the declared length, non-negative integers
below `16 ^ length` (all catalog widths are at least 1), and no `Float`
value (`Float` has no serializer: it inherits `BaseType.serialize`, which
returns the raw float object and makes the string join fail, matching the
spec's "receive-only"). -/
def SField.legal : SField → Bool
  | .str v w => v.length == w
  | .int v w | .year2k v w | .unixTs v w | .logAddr v w =>
    decide (0 ≤ v) && decide (v.toNat < 16 ^ w) && decide (1 ≤ w)
  | .float _ _ => false

/-- Legality of a field object's value for encoding. -/
def Field.legal : Field → Bool
  | .scalar f => f.legal
  | .composite _ cs _ => cs.all SField.legal

/-- protocol.py, scalar `serialize` methods: `BaseType.serialize` returns the
value unchanged (class `String`); `Int.serialize` (inherited by `Year2k`,
`UnixTimestamp`, `LogAddr`) renders `"%0\x7blength\x7dX" % value`; `Float`
has no usable serializer (`none` models the `TypeError` the inherited
`BaseType.serialize` causes in the string join). -/
def SField.serialize : SField → Option (List Char)
  | .str v _ => some v
  | .int v w | .year2k v w | .unixTs v w | .logAddr v w => some (intSerialize w v)
  | .float _ _ => none

/-- protocol.py, `CompositeType.serialize`:
`''.join(a.serialize() for a in self.contents)`. -/
def serializeContents : List SField → Option (List Char)
  | [] => some []
  | f :: fs =>
    match f.serialize, serializeContents fs with
    | some s, some t => some (s ++ t)
    | _, _ => none

/-- Serialization of a field object. -/
def Field.serialize : Field → Option (List Char)
  | .scalar f => f.serialize
  | .composite _ cs _ => serializeContents cs

/-- protocol.py, `PlugwiseMessage.serialize`:
`''.join(a.serialize() for a in self.args)` over the request's args. -/
def serializeArgs : List Field → Option (List Char)
  | [] => some []
  | a :: rest =>
    match a.serialize, serializeArgs rest with
    | some s, some t => some (s ++ t)
    | _, _ => none

/-- protocol.py, `PlugwiseMessage.serialize`: build `msg = ID + mac + args`,
append `calculate_checksum(msg)` and wrap in header/footer.  `none` models
the `TypeError` when some arg has no serializer (never the case for catalog
requests). -/
def PlugwiseMessage.serialize (ID mac : List Char) (args : List Field) :
    Option (List Char) :=
  (serializeArgs args).map fun argstr =>
    let msg := ID ++ mac ++ argstr
    PACKET_HEADER ++ msg ++ calculate_checksum msg ++ PACKET_FOOTER

/-- Gregorian leap-year rule, as `datetime` uses it. -/
def isLeapYear (y : Int) : Bool :=
  y % 4 == 0 && (y % 100 != 0 || y % 400 == 0)

/-- Days in a month, as `datetime` uses it. -/
def daysInMonth (y m : Int) : Int :=
  if m == 2 then (if isLeapYear y then 29 else 28)
  else if m == 4 || m == 6 || m == 9 || m == 11 then 30
  else 31

/-- Argument validation of `datetime.datetime(year, month, day, hour, minute)`;
out-of-range arguments raise `ValueError`. -/
def datetimeValid (y mo d h mi : Int) : Bool :=
  1 ≤ y && y ≤ 9999 && 1 ≤ mo && mo ≤ 12 && 1 ≤ d && d ≤ daysInMonth y mo &&
    0 ≤ h && h < 24 && 0 ≤ mi && mi < 60

/-- Argument validation of `datetime.time(hour, minute, second)`. -/
def timeValid (h mi s : Int) : Bool :=
  0 ≤ h && h < 24 && 0 ≤ mi && mi < 60 && 0 ≤ s && s < 60

/-- protocol.py, scalar `unserialize` methods, acting on the object's shape and
producing the updated object (`self.value = ...`); `none` models an uncaught
exception (`ValueError` from `int(...)`/`datetime`, `TypeError` from
`unhexlify`, `struct.error`):
* `BaseType.unserialize` (class `String`): store the slice unchanged;
* `Int.unserialize`: `int(val, 16)`;
* `Year2k.unserialize`: `int`, then `+ 2000` (`PLUGWISE_EPOCH`);
* `UnixTimestamp.unserialize`: `int`, then `datetime.fromtimestamp` (kept as
  the seconds value, see `SField`);
* `Float.unserialize`: `unhexlify` then `struct.unpack("!f", ...)`, which
  succeeds exactly on 8 hex characters (4 raw bytes);
* `LogAddr.unserialize`: `int`, then `(value - 278528) / 32` — Python 2 floor
  division on ints. -/
def SFieldSpec.unserialize : SFieldSpec → List Char → Option SField
  | .str w, v => some (.str v w)
  | .int w, v => (parseHex v).map fun n => .int (Int.ofNat n) w
  | .year2k w, v => (parseHex v).map fun n => .year2k (Int.ofNat n + 2000) w
  | .unixTs w, v => (parseHex v).map fun n => .unixTs (Int.ofNat n) w
  | .float w, v =>
    if v.length == 8 then (parseHex v).map fun n => .float n w else none
  | .logAddr w, v =>
    (parseHex v).map fun n => .logAddr (Int.fdiv (Int.ofNat n - 278528) 32) w

/-- protocol.py, `CompositeType.unserialize` loop: each child takes the slice
`val[:len(p)]`, is decoded from it, and the rest `val[len(myval):]` goes to
the next child; returns the updated children and the leftover. -/
def unserializeContents : List SFieldSpec → List Char → Option (List SField × List Char)
  | [], val => some ([], val)
  | p :: ps, val =>
    let myval := val.take p.len
    match p.unserialize myval with
    | none => none
    | some p' =>
      (unserializeContents ps (val.drop myval.length)).map fun r => (p' :: r.1, r.2)

/-- Post-processing the two composite subclasses run after the child loop
(the catalog only ever builds these two child shapes, see `DateTime.spec`
and `Time.spec`):
* `DateTime.unserialize`: split minutes-of-month into days/hours/minutes and
  build `datetime.datetime(year, month, days, hours, minutes)`;
* `Time.unserialize`: build `datetime.time(hour, minute, second)`. -/
def compositeValue : CompKind → List SField → Option DTVal
  | .dateTime, [.year2k y _, .int mo _, .int mins _] =>
    let hours := Int.fdiv mins 60
    let days := Int.fdiv hours 24
    let hours2 := hours - days * 24
    let mins2 := mins - (days * 24 * 60 + hours2 * 60)
    if datetimeValid y mo days hours2 mins2 then some (.dt y mo days hours2 mins2)
    else none
  | .time, [.int h _, .int mi _, .int s _] =>
    if timeValid h mi s then some (.tod h mi s) else none
  | _, _ => none

/-- Decoding one field from its slice: a scalar decodes directly; a composite
runs the child loop, then its subclass post-processing sets `self.value`. -/
def FieldSpec.unserialize : FieldSpec → List Char → Option Field
  | .scalar sp, v => (sp.unserialize v).map .scalar
  | .composite k cs, v =>
    match unserializeContents cs v with
    | none => none
    | some (cs', _) => (compositeValue k cs').map fun dv => .composite k cs' (some dv)

/-- Exceptions of the receive path.  `lengthMismatch`, `brokenHeader` and
`brokenFooter` are the `ProtocolError`s `PlugwiseResponse.unserialize`
raises; `brokenFooter` carries the `params` values that were already written
into the response object before the footer check.  `valueError` stands for
the exceptions field decoding raises (`ValueError` etc.), which are not
`ProtocolError`s. -/
inductive PErr where
  | lengthMismatch
  | brokenHeader
  | valueError
  | brokenFooter (populated : List Field)

/-- api.py, `Stick.expect_response` catches exactly `ProtocolError`. -/
def catchable : PErr → Bool
  | .lengthMismatch => true
  | .brokenHeader => true
  | .brokenFooter _ => true
  | .valueError => false

/-- protocol.py, `PlugwiseResponse._parse_params`: same slice loop as
`CompositeType.unserialize`, over the declared `params`, returning the
populated params and the leftover bytes. -/
def PlugwiseResponse.parse_params :
    List FieldSpec → List Char → Option (List Field × List Char)
  | [], response => some ([], response)
  | p :: ps, response =>
    let myval := response.take p.len
    match p.unserialize myval with
    | none => none
    | some p' =>
      (PlugwiseResponse.parse_params ps (response.drop myval.length)).map fun r =>
        (p' :: r.1, r.2)

/-- protocol.py, `PlugwiseResponse.__len__`: `34 + arglen` (28-byte
header/function-code/counter/mac prefix, plus 4 checksum and 2 footer
characters). -/
def PlugwiseResponse.len (params : List FieldSpec) : Nat :=
  34 + paramsLen params

/-- protocol.py, `PlugwiseResponse.unserialize`:
1. raise a `ProtocolError` ("message doesn't have expected length") unless
   `len(response) == len(self)`;
2. unpack the first 28 bytes as header/function-code/counter/mac (the
   function code is not checked — a `FIXME` in the source) and raise
   "broken header!" unless the header matches;
3. decode `response[28:]` against `params` (`_parse_params`);
4. slice off `crc = response[:4]` — extracted but never compared — and raise
   "broken footer!" unless the remaining 2 bytes are the footer.  At that
   point the params have already been populated in place, which the
   `brokenFooter` payload records. -/
def PlugwiseResponse.unserialize (params : List FieldSpec) (response : List Char) :
    Except PErr (List Field) :=
  if response.length ≠ PlugwiseResponse.len params then .error .lengthMismatch
  else
    let header := response.take 4
    if header ≠ PACKET_HEADER then .error .brokenHeader
    else
      match PlugwiseResponse.parse_params params (response.drop 28) with
      | none => .error .valueError
      | some (fields, rest) =>
        if rest.drop 4 ≠ PACKET_FOOTER then .error (.brokenFooter fields)
        else .ok fields

/-- Outcome of running the read loop for a bounded number of iterations:
it returned a populated response, an uncaught exception escaped, or the
given number of iterations was not enough (the loop is still running). -/
inductive ReadOutcome where
  | success (fields : List Field)
  | crashed (e : PErr)
  | looping

/-- api.py, `Stick.expect_response` / `Stick._recv_response`: loop forever,
each iteration reading one line from the transport and trying
`unserialize` on the expected response's shape; a `ProtocolError` is caught
(logged) and the loop reads again; anything else propagates.  The transport
is modelled as the list of frames `readline` will deliver, an exhausted
transport delivering the empty read; `fuel` bounds how many iterations are
observed. -/
def Stick.expect_response (params : List FieldSpec) :
    List (List Char) → Nat → ReadOutcome
  | _, 0 => .looping
  | frames, fuel + 1 =>
    match PlugwiseResponse.unserialize params (frames.headD []) with
    | .ok fields => .success fields
    | .error e =>
      if catchable e then Stick.expect_response params frames.tail fuel
      else .crashed e

/-- protocol.py, `DateTime.__init__`: children `Year2k(year - 2000, 2)`,
`Int(month, 2)`, `Int(minutes, 4)`. -/
def DateTime.spec : FieldSpec :=
  .composite .dateTime [.year2k 2, .int 2, .int 4]

/-- protocol.py, `Time.__init__`: children `Int(hour, 2)`, `Int(minute, 2)`,
`Int(second, 2)`. -/
def Time.spec : FieldSpec :=
  .composite .time [.int 2, .int 2, .int 2]

/-- protocol.py, `DateTime.__init__` as an object with values (the year is
stored offset from the epoch 2000). -/
def DateTime.mk (year month minutes : Int) : Field :=
  .composite .dateTime [.year2k (year - 2000) 2, .int month 2, .int minutes 4] none

/-- protocol.py, `Time.__init__` as an object with values. -/
def Time.mk (hour minute second : Int) : Field :=
  .composite .time [.int hour 2, .int minute 2, .int second 2] none

/-- protocol.py, `PlugwiseCalibrationResponse.__init__`: four `Float(0, 8)`. -/
def PlugwiseCalibrationResponse.params : List FieldSpec :=
  [.scalar (.float 8), .scalar (.float 8), .scalar (.float 8), .scalar (.float 8)]

/-- protocol.py, `PlugwiseClockInfoResponse.__init__`. -/
def PlugwiseClockInfoResponse.params : List FieldSpec :=
  [Time.spec, .scalar (.int 2), .scalar (.int 2), .scalar (.int 4)]

/-- protocol.py, `PlugwisePowerUsageResponse.__init__`. -/
def PlugwisePowerUsageResponse.params : List FieldSpec :=
  [.scalar (.int 4), .scalar (.int 4), .scalar (.int 8), .scalar (.int 4),
    .scalar (.int 4), .scalar (.int 4)]

/-- protocol.py, `PlugwiseInfoResponse.__init__`. -/
def PlugwiseInfoResponse.params : List FieldSpec :=
  [DateTime.spec, .scalar (.logAddr 8), .scalar (.int 2), .scalar (.int 2),
    .scalar (.str 12), .scalar (.unixTs 8), .scalar (.int 2)]

/-- protocol.py, `PlugwiseInitResponse.__init__`.  (In the source the first
and last entry are the same `Int(0, 2)` object — `self.unknown` is assigned
twice; the aliasing affects no declared length and no claimed value.) -/
def PlugwiseInitResponse.params : List FieldSpec :=
  [.scalar (.int 2), .scalar (.int 2), .scalar (.int 16), .scalar (.int 4),
    .scalar (.int 2)]

/-- protocol.py, `PlugwiseSwitchRequest`: function code and single
`Int(1 if on else 0, length=2)` argument for `on=True`. -/
def PlugwiseSwitchRequest.ID : List Char := (r"0017").data

/-- A concrete clock-info response body: time 00:00:00, day-of-week 1, then
the two unknown fields. -/
def clockBody : List Char := (r"0000000100" ++ r"0000").data

/-- The function-code / sequence-counter / mac part of a concrete clock-info
frame (24 characters). -/
def clockMid : List Char := (r"003F0000" ++ r"0123456789ABCDEF").data

/-- A well-formed clock-info response frame (48 characters; the checksum
characters are arbitrary, they are never inspected). -/
def clockFrame : List Char :=
  PACKET_HEADER ++ clockMid ++ clockBody ++ (r"1A2B").data ++ PACKET_FOOTER

/-- The params of `PlugwiseClockInfoResponse` after decoding `clockBody`. -/
def clockFields : List Field :=
  [.composite .time [.int 0 2, .int 0 2, .int 0 2] (some (.tod 0 0 0)),
    .scalar (.int 1 2), .scalar (.int 0 2), .scalar (.int 0 4)]

/-- Reading back a digit `"%X"` produced gives the digit's value. -/
theorem hexVal_hexDigitChar : ∀ n, n < 16 → hexVal (hexDigitChar n) = some n := by
  decide

/-- Parsing a parsed prefix continues with the prefix's value as accumulator. -/
theorem parseHexCore_append (s t : List Char) :
    ∀ acc v, parseHexCore acc s = some v → parseHexCore acc (s ++ t) = parseHexCore v t := by
  induction s with
  | nil =>
    intro acc v h
    simp [parseHexCore] at h
    simp [h]
  | cons c cs ih =>
    intro acc v h
    simp only [parseHexCore, List.cons_append] at h ⊢
    cases hc : hexVal c with
    | none => rw [hc] at h; exact Option.noConfusion h
    | some d => rw [hc] at h; exact ih _ _ h

/-- The fuel-indexed hex printer round-trips through the parser core. -/
theorem parseHexCore_natToHexAux :
    ∀ fuel n, n < fuel → parseHexCore 0 (natToHexAux fuel n) = some n := by
  intro fuel
  induction fuel with
  | zero => intro n h; omega
  | succ fuel ih =>
    intro n h
    by_cases h16 : n < 16
    · simp [natToHexAux, h16, parseHexCore, hexVal_hexDigitChar n h16]
    · have hn : n / 16 < fuel := by
        have hlt : n / 16 < n := Nat.div_lt_self (by omega) (by norm_num)
        omega
      rw [natToHexAux, if_neg h16,
        parseHexCore_append _ _ 0 (n / 16) (ih (n / 16) hn)]
      have hm : n % 16 < 16 := Nat.mod_lt n (by norm_num)
      simp [parseHexCore, hexVal_hexDigitChar (n % 16) hm]
      omega

/-- The hex printer never returns the empty string. -/
theorem natToHex_ne_nil (n : Nat) : natToHex n ≠ [] := by
  unfold natToHex natToHexAux
  by_cases h : n < 16
  · simp [h]
  · simp [h]

/-- Leading zeros do not change the parsed value. -/
theorem parseHexCore_zeros (k : Nat) (s : List Char) :
    parseHexCore 0 (List.replicate k '0' ++ s) = parseHexCore 0 s := by
  induction k with
  | zero => simp
  | succ k ih =>
    have h0 : hexVal '0' = some 0 := by decide
    simp [List.replicate_succ, parseHexCore, h0, ih]

/-- Zero-padded hex output parses back to the printed value. -/
theorem parseHex_leftPadZero_natToHex (w n : Nat) :
    parseHex (leftPadZero w (natToHex n)) = some n := by
  obtain ⟨c, t, hct⟩ := List.exists_cons_of_ne_nil (natToHex_ne_nil n)
  have hcore : parseHexCore 0 (leftPadZero w (natToHex n)) = some n := by
    unfold leftPadZero
    rw [parseHexCore_zeros]
    exact parseHexCore_natToHexAux (n + 1) n (by omega)
  unfold leftPadZero at hcore ⊢
  rw [hct] at hcore ⊢
  cases hw : List.replicate (w - (c :: t).length) '0' with
  | nil => rw [hw] at hcore; simpa [parseHex] using hcore
  | cons d ds => rw [hw] at hcore; simpa [parseHex] using hcore

/-- Decoding inverts encoding for non-negative integers (`int(x, 16)` of
`"%0*X" % v`). -/
theorem parseHex_intSerialize (w : Nat) (n : Nat) :
    parseHex (intSerialize w (Int.ofNat n)) = some n := by
  have hnn : ¬ (Int.ofNat n < 0) := not_lt.mpr (Int.ofNat_nonneg n)
  simp only [intSerialize, if_neg hnn, Int.toNat_ofNat]
  exact parseHex_leftPadZero_natToHex w n

/-- Digit-count bound for the fuel-indexed hex printer. -/
theorem natToHexAux_length :
    ∀ fuel n w, n < fuel → n < 16 ^ w → 1 ≤ w → (natToHexAux fuel n).length ≤ w := by
  intro fuel
  induction fuel with
  | zero => intro n w h; omega
  | succ fuel ih =>
    intro n w h hpow hw
    by_cases h16 : n < 16
    · simp [natToHexAux, h16]; omega
    · have hw2 : 2 ≤ w := by
        rcases Nat.lt_or_ge w 2 with hlt | hge
        · interval_cases w
          omega
        · exact hge
      have hn : n / 16 < fuel := by
        have hlt : n / 16 < n := Nat.div_lt_self (by omega) (by norm_num)
        omega
      have hpow2 : n / 16 < 16 ^ (w - 1) := by
        apply Nat.div_lt_of_lt_mul
        calc n < 16 ^ w := hpow
        _ = 16 * 16 ^ (w - 1) := by
            rw [← pow_succ']
            congr 1
            omega
      have := ih (n / 16) (w - 1) hn hpow2 (by omega)
      rw [natToHexAux, if_neg h16]
      simp only [List.length_append, List.length_cons, List.length_nil]
      omega

/-- Padded width of a short-enough string. -/
theorem leftPadZero_length (w : Nat) (s : List Char) (h : s.length ≤ w) :
    (leftPadZero w s).length = w := by
  simp [leftPadZero]
  omega

/-- The encoded form of a legal integer value is exactly the declared width. -/
theorem intSerialize_length (w : Nat) (v : Int) (h0 : 0 ≤ v)
    (hlt : v.toNat < 16 ^ w) (hw : 1 ≤ w) : (intSerialize w v).length = w := by
  have hnn : ¬ (v < 0) := by omega
  simp only [intSerialize, if_neg hnn]
  exact leftPadZero_length w _
    (natToHexAux_length (v.toNat + 1) v.toNat w (by omega) hlt hw)

/-- Every character the hex printer emits is an uppercase hex digit. -/
theorem natToHexAux_upperHex :
    ∀ fuel n c, n < fuel → c ∈ natToHexAux fuel n → isUpperHexDigit c = true := by
  have hdig : ∀ m, m < 16 → isUpperHexDigit (hexDigitChar m) = true := by decide
  intro fuel
  induction fuel with
  | zero => intro n c h; omega
  | succ fuel ih =>
    intro n c h hc
    by_cases h16 : n < 16
    · rw [natToHexAux, if_pos h16] at hc
      simp at hc
      exact hc ▸ hdig n h16
    · have hn : n / 16 < fuel := by
        have hlt : n / 16 < n := Nat.div_lt_self (by omega) (by norm_num)
        omega
      rw [natToHexAux, if_neg h16] at hc
      rcases List.mem_append.mp hc with hmem | hmem
      · exact ih (n / 16) c hn hmem
      · simp at hmem
        exact hmem ▸ hdig (n % 16) (Nat.mod_lt n (by norm_num))

/-- Every character of a non-negative `intSerialize` output is an uppercase
hex digit. -/
theorem intSerialize_upperHex (w : Nat) (v : Int) (h0 : 0 ≤ v) :
    ∀ c ∈ intSerialize w v, isUpperHexDigit c = true := by
  intro c hc
  have hnn : ¬ (v < 0) := by omega
  simp only [intSerialize, if_neg hnn, leftPadZero] at hc
  rcases List.mem_append.mp hc with hmem | hmem
  · rw [List.eq_of_mem_replicate hmem]; decide
  · exact natToHexAux_upperHex (v.toNat + 1) v.toNat c (by omega) hmem

/-- The CRC register stays below `2 ^ 16` after a shift step. -/
theorem crcShift_lt (c : Nat) : crcShift c < 65536 := by
  unfold crcShift
  split <;> exact Nat.mod_lt _ (by norm_num)

/-- The CRC register stays below `2 ^ 16` after a byte. -/
theorem crcByte_lt (c b : Nat) : crcByte c b < 65536 := by
  unfold crcByte
  exact crcShift_lt _

/-- The CRC value is a 16-bit quantity. -/
theorem crc_fun_lt (s : List Char) : crc_fun s < 65536 := by
  have haux : ∀ (t : List Char) (acc : Nat), acc < 65536 →
      List.foldl (fun c ch => crcByte c (ch.toNat % 256)) acc t < 65536 := by
    intro t
    induction t with
    | nil => intro acc h; simpa using h
    | cons x xs ih =>
      intro acc _
      simp only [List.foldl_cons]
      exact ih _ (crcByte_lt acc (x.toNat % 256))
  exact haux s 0 (by norm_num)

/-- The rendered checksum is exactly four characters. -/
theorem calculate_checksum_length (s : List Char) :
    (calculate_checksum s).length = 4 := by
  unfold calculate_checksum
  exact intSerialize_length 4 _ (Int.ofNat_nonneg _)
    (by simpa using crc_fun_lt s) (by norm_num)

/-- The rendered checksum consists of uppercase hex digits. -/
theorem calculate_checksum_upperHex (s : List Char) :
    ∀ c ∈ calculate_checksum s, isUpperHexDigit c = true := by
  unfold calculate_checksum
  exact intSerialize_upperHex 4 _ (Int.ofNat_nonneg _)

/-- When the input covers the declared lengths exactly, parsing params of a
longer input decodes the same fields and leaves the extra tail over. -/
theorem parse_params_append (specs : List FieldSpec) :
    ∀ (v t : List Char), v.length = paramsLen specs →
      PlugwiseResponse.parse_params specs (v ++ t) =
        (PlugwiseResponse.parse_params specs v).map fun r => (r.1, t) := by
  induction specs with
  | nil =>
    intro v t h
    simp only [paramsLen] at h
    rw [List.length_eq_zero.mp h]
    simp [PlugwiseResponse.parse_params]
  | cons p ps ih =>
    intro v t h
    simp only [paramsLen] at h
    have hple : p.len ≤ v.length := by omega
    simp only [PlugwiseResponse.parse_params,
      List.take_append_of_le_length hple]
    have hmylen : (v.take p.len).length = p.len := by
      rw [List.length_take]
      omega
    cases hu : p.unserialize (v.take p.len) with
    | none => simp
    | some p' =>
      have hdrop : (v ++ t).drop ((v.take p.len).length) = v.drop p.len ++ t := by
        rw [hmylen]
        exact List.drop_append_of_le_length hple
      rw [hdrop, hmylen,
        ih (v.drop p.len) t (by rw [List.length_drop]; omega)]
      cases PlugwiseResponse.parse_params ps (v.drop p.len) <;> simp

/-- C1: serializing a request with function code `ID`, MAC `mac` and argument
fields `args` yields exactly
`header ++ ID ++ mac ++ encoded args ++ checksum ++ footer`, where the
checksum is the CRC-16 with polynomial 0x11021, initial value 0, no
reflection and no final xor, computed over exactly `ID ++ mac ++ args` and
rendered as 4 uppercase hex digits. -/
theorem request_serialize_layout (ID mac : List Char) (args : List Field)
    (argstr : List Char) (h : serializeArgs args = some argstr) :
    PlugwiseMessage.serialize ID mac args =
      some (PACKET_HEADER ++ ID ++ mac ++ argstr ++
        calculate_checksum (ID ++ mac ++ argstr) ++ PACKET_FOOTER) ∧
    calculate_checksum (ID ++ mac ++ argstr) =
      intSerialize 4 (Int.ofNat (crc_fun (ID ++ mac ++ argstr))) ∧
    (calculate_checksum (ID ++ mac ++ argstr)).length = 4 ∧
    ∀ c ∈ calculate_checksum (ID ++ mac ++ argstr), isUpperHexDigit c = true := by
  refine ⟨?_, rfl, calculate_checksum_length _, calculate_checksum_upperHex _⟩
  simp [PlugwiseMessage.serialize, h, List.append_assoc]

/-- C1 witness: the switch-on request for MAC `0123456789ABCDEF` has function
code `0017`, the MAC, the single 2-digit argument `01`, the checksum and the
framing. -/
theorem request_serialize_layout_witness :
    PlugwiseMessage.serialize PlugwiseSwitchRequest.ID ((r"0123456789ABCDEF").data)
        [Field.scalar (.int 1 2)] =
      some (PACKET_HEADER ++ PlugwiseSwitchRequest.ID ++ ((r"0123456789ABCDEF").data) ++
        ((r"01").data) ++
        calculate_checksum (PlugwiseSwitchRequest.ID ++ ((r"0123456789ABCDEF").data) ++
          ((r"01").data)) ++ PACKET_FOOTER) :=
  (request_serialize_layout PlugwiseSwitchRequest.ID ((r"0123456789ABCDEF").data)
    [Field.scalar (.int 1 2)] ((r"01").data) rfl).1

/-- C9: `decode(encode(v)) = v` for the hex integer field at every legal value
(`0 ≤ v < 16 ^ w`) and for the raw string field; the Year2k field round-trips
at the year level (it is constructed with `year - 2000` stored, as
`DateTime.__init__` does, and decoding adds the epoch back); the `Float`
field is receive-only, see `SField.serialize`. -/
theorem int_string_roundtrip :
    (∀ (w : Nat) (v : Int), 0 ≤ v → v.toNat < 16 ^ w →
      (SField.int v w).serialize = some (intSerialize w v) ∧
      SFieldSpec.unserialize (.int w) (intSerialize w v) = some (.int v w)) ∧
    (∀ (w : Nat) (s : List Char),
      (SField.str s w).serialize = some s ∧
      SFieldSpec.unserialize (.str w) s = some (.str s w)) ∧
    (∀ (w : Nat) (year : Int), 2000 ≤ year → (year - 2000).toNat < 16 ^ w →
      (SField.year2k (year - 2000) w).serialize = some (intSerialize w (year - 2000)) ∧
      SFieldSpec.unserialize (.year2k w) (intSerialize w (year - 2000)) =
        some (.year2k year w)) := by
  refine ⟨?_, ?_, ?_⟩
  · intro w v h0 _
    refine ⟨rfl, ?_⟩
    obtain ⟨n, rfl⟩ : ∃ n : Nat, v = Int.ofNat n :=
      ⟨v.toNat, (Int.toNat_of_nonneg h0).symm⟩
    simp only [SFieldSpec.unserialize]
    rw [show parseHex (intSerialize w (Int.ofNat n)) = some n from
      parseHex_intSerialize w n]
    rfl
  · intro w s
    exact ⟨rfl, rfl⟩
  · intro w year h0 _
    refine ⟨rfl, ?_⟩
    obtain ⟨n, hn⟩ : ∃ n : Nat, year - 2000 = Int.ofNat n :=
      ⟨(year - 2000).toNat, (Int.toNat_of_nonneg (by omega)).symm⟩
    rw [hn]
    simp only [SFieldSpec.unserialize]
    rw [show parseHex (intSerialize w (Int.ofNat n)) = some n from
      parseHex_intSerialize w n]
    simp only [Option.map_some', Option.some.injEq, SField.year2k.injEq]
    refine ⟨?_, trivial⟩
    omega

/-- C9 witness: width 4, value 0x0ABC. -/
theorem int_string_roundtrip_witness :
    SFieldSpec.unserialize (.int 4) (intSerialize 4 2748) = some (.int 2748 4) :=
  (int_string_roundtrip.1 4 2748 (by norm_num) (by norm_num)).2

/-- C5 counterexample: the raw value 278529 = 0x44001 is not 278528 plus a
multiple of 32, yet LogAddr decoding raises no error and silently yields the
floored slot index 0 (Python 2 floor division), instead of surfacing the
non-integral result. -/
theorem logaddr_nonmultiple_silent :
    SFieldSpec.unserialize (.logAddr 8) ((r"00044001").data) =
      some (.logAddr 0 8) ∧ (278529 - 278528) % 32 ≠ 0 := by
  exact ⟨rfl, by norm_num⟩

/-- C5 (amended): LogAddr decoding yields `(raw - 278528) / 32` with Python 2
floor division, silently discarding any remainder; 278528 still maps to slot
0 and 278560 to slot 1. -/
theorem logaddr_decode_floor (w : Nat) (s : List Char) (n : Nat)
    (h : parseHex s = some n) :
    SFieldSpec.unserialize (.logAddr w) s =
      some (.logAddr (Int.fdiv (Int.ofNat n - 278528) 32) w) := by
  simp [SFieldSpec.unserialize, h]

/-- C5 witness: raw 278528 = 0x44000 decodes to slot 0, raw 278560 = 0x44020
to slot 1. -/
theorem logaddr_decode_floor_witness :
    SFieldSpec.unserialize (.logAddr 8) ((r"00044000").data) =
        some (.logAddr 0 8) ∧
      SFieldSpec.unserialize (.logAddr 8) ((r"00044020").data) =
        some (.logAddr 1 8) :=
  ⟨(logaddr_decode_floor 8 ((r"00044000").data) 278528 rfl).trans (by decide),
    (logaddr_decode_floor 8 ((r"00044020").data) 278560 rfl).trans (by decide)⟩

/-- C3 counterexample: a 60-character input for the calibration response has
exactly `28 + sum of declared field lengths` characters (28 + 32), yet
deserialization does fail with the length-mismatch error — the accepted
length is `34 + sum` (the 28-byte prefix plus 4 checksum and 2 footer
characters). -/
theorem length_check_not_28 :
    PlugwiseResponse.unserialize PlugwiseCalibrationResponse.params
        (List.replicate 60 'A') = .error .lengthMismatch ∧
      (List.replicate 60 'A' : List Char).length =
        28 + paramsLen PlugwiseCalibrationResponse.params :=
  ⟨rfl, rfl⟩

/-- C3 (amended): deserialization fails with the length-mismatch error exactly
when the input's length differs from `34 + sum of declared field lengths`
(28-byte header/function-code/sequence-counter/mac prefix, plus the
4-character checksum and the 2-character footer). -/
theorem length_mismatch_iff (params : List FieldSpec) (r : List Char) :
    PlugwiseResponse.unserialize params r = .error .lengthMismatch ↔
      r.length ≠ 34 + paramsLen params := by
  unfold PlugwiseResponse.unserialize PlugwiseResponse.len
  by_cases h : r.length = 34 + paramsLen params
  · simp only [h, ne_eq, not_true_eq_false, if_false, iff_false]
    split
    · simp
    · split
      · simp
      · split <;> simp
  · simp [h]

/-- C2: on a transport whose reads always come back empty, the read loop never
exits — the empty read raises the length-mismatch `ProtocolError`, which
`expect_response` catches before reading again, for as many iterations as one
cares to observe; there is no timeout exit. -/
theorem expect_response_empty_reads_loop (params : List FieldSpec) :
    ∀ fuel, Stick.expect_response params [] fuel = .looping := by
  intro fuel
  induction fuel with
  | zero => rfl
  | succ fuel ih =>
    have hlen : PlugwiseResponse.unserialize params [] = .error .lengthMismatch := by
      unfold PlugwiseResponse.unserialize PlugwiseResponse.len
      rw [if_pos]
      simp only [List.length_nil]
      omega
    simp [Stick.expect_response, hlen, catchable, ih]

/-- C7: the receive path never verifies the checksum — for any frame with the
right total length, the right header, fields that decode, and the right
footer, deserialization succeeds no matter what the 4 checksum characters
are. -/
theorem checksum_not_verified_on_receive (specs : List FieldSpec)
    (mid24 body crc : List Char) (fields : List Field)
    (hmid : mid24.length = 24) (hbody : body.length = paramsLen specs)
    (hparse : PlugwiseResponse.parse_params specs body = some (fields, []))
    (hcrc : crc.length = 4) :
    PlugwiseResponse.unserialize specs
      (PACKET_HEADER ++ mid24 ++ body ++ crc ++ PACKET_FOOTER) = .ok fields := by
  have hframe : PACKET_HEADER ++ mid24 ++ body ++ crc ++ PACKET_FOOTER
      = (PACKET_HEADER ++ mid24) ++ (body ++ (crc ++ PACKET_FOOTER)) := by
    simp [List.append_assoc]
  rw [hframe]
  unfold PlugwiseResponse.unserialize PlugwiseResponse.len
  have h28 : (PACKET_HEADER ++ mid24).length = 28 := by
    simp [List.length_append, hmid, PACKET_HEADER]
  have hlen : ((PACKET_HEADER ++ mid24) ++ (body ++ (crc ++ PACKET_FOOTER))).length
      = 34 + paramsLen specs := by
    simp only [List.length_append, hbody, hcrc]
    simp [PACKET_HEADER, PACKET_FOOTER] at h28 ⊢
    omega
  rw [if_neg (by rw [hlen]; simp)]
  have htake : ((PACKET_HEADER ++ mid24) ++ (body ++ (crc ++ PACKET_FOOTER))).take 4
      = PACKET_HEADER := by
    rw [List.append_assoc, show (4 : Nat) = PACKET_HEADER.length from rfl]
    exact List.take_left _ _
  rw [htake, if_neg (by simp)]
  have hdrop : ((PACKET_HEADER ++ mid24) ++ (body ++ (crc ++ PACKET_FOOTER))).drop 28
      = body ++ (crc ++ PACKET_FOOTER) := by
    rw [show (28 : Nat) = (PACKET_HEADER ++ mid24).length from h28.symm]
    exact List.drop_left _ _
  rw [hdrop, parse_params_append specs body (crc ++ PACKET_FOOTER) hbody, hparse]
  have hfdrop : (crc ++ PACKET_FOOTER).drop 4 = PACKET_FOOTER := by
    rw [show (4 : Nat) = crc.length from hcrc.symm]
    exact List.drop_left _ _
  simp [hfdrop]

/-- C7 witness: a clock-info frame whose checksum field is the non-hex
garbage `ZZZZ` still deserializes successfully. -/
theorem checksum_not_verified_on_receive_witness :
    PlugwiseResponse.unserialize PlugwiseClockInfoResponse.params
      (PACKET_HEADER ++ clockMid ++ clockBody ++ ((r"ZZZZ").data) ++ PACKET_FOOTER) =
      .ok clockFields :=
  checksum_not_verified_on_receive PlugwiseClockInfoResponse.params
    clockMid clockBody ((r"ZZZZ").data) clockFields rfl rfl rfl rfl

/-- C10: decoding is not atomic — a frame with the right length and header
whose fields decode but whose footer is wrong raises the footer error only
after the response's params have been populated in place with the values
decoded from the rejected frame (the `brokenFooter` payload records that
state). -/
theorem footer_error_after_population (specs : List FieldSpec)
    (mid24 body crc bf : List Char) (fields : List Field)
    (hmid : mid24.length = 24) (hbody : body.length = paramsLen specs)
    (hparse : PlugwiseResponse.parse_params specs body = some (fields, []))
    (hcrc : crc.length = 4) (hbf2 : bf.length = 2) (hbf : bf ≠ PACKET_FOOTER) :
    PlugwiseResponse.unserialize specs
      (PACKET_HEADER ++ mid24 ++ body ++ crc ++ bf) =
      .error (.brokenFooter fields) := by
  have hframe : PACKET_HEADER ++ mid24 ++ body ++ crc ++ bf
      = (PACKET_HEADER ++ mid24) ++ (body ++ (crc ++ bf)) := by
    simp [List.append_assoc]
  rw [hframe]
  unfold PlugwiseResponse.unserialize PlugwiseResponse.len
  have h28 : (PACKET_HEADER ++ mid24).length = 28 := by
    simp [List.length_append, hmid, PACKET_HEADER]
  have hlen : ((PACKET_HEADER ++ mid24) ++ (body ++ (crc ++ bf))).length
      = 34 + paramsLen specs := by
    simp only [List.length_append, hbody, hcrc, hbf2]
    simp [PACKET_HEADER] at h28 ⊢
    omega
  rw [if_neg (by rw [hlen]; simp)]
  have htake : ((PACKET_HEADER ++ mid24) ++ (body ++ (crc ++ bf))).take 4
      = PACKET_HEADER := by
    rw [List.append_assoc, show (4 : Nat) = PACKET_HEADER.length from rfl]
    exact List.take_left _ _
  rw [htake, if_neg (by simp)]
  have hdrop : ((PACKET_HEADER ++ mid24) ++ (body ++ (crc ++ bf))).drop 28
      = body ++ (crc ++ bf) := by
    rw [show (28 : Nat) = (PACKET_HEADER ++ mid24).length from h28.symm]
    exact List.drop_left _ _
  rw [hdrop, parse_params_append specs body (crc ++ bf) hbody, hparse]
  have hfdrop : (crc ++ bf).drop 4 = bf := by
    rw [show (4 : Nat) = crc.length from hcrc.symm]
    exact List.drop_left _ _
  simp [hfdrop, hbf]

/-- C10 witness: the clock-info frame with footer `XY` instead of CR LF is
rejected with the footer error while the decoded field values are already in
place. -/
theorem footer_error_after_population_witness :
    PlugwiseResponse.unserialize PlugwiseClockInfoResponse.params
      (PACKET_HEADER ++ clockMid ++ clockBody ++ ((r"1A2B").data) ++ ['X', 'Y']) =
      .error (.brokenFooter clockFields) :=
  footer_error_after_population PlugwiseClockInfoResponse.params
    clockMid clockBody ((r"1A2B").data) ['X', 'Y'] clockFields
    rfl rfl rfl rfl rfl (by decide)

/-- C6: reading a stream of `N` structurally malformed frames (those whose
deserialization raises a catchable `ProtocolError`: length, header or footer
mismatch) followed by one well-formed frame of the expected type makes
`expect_response` return the response decoded from the well-formed frame,
silently discarding the malformed ones. -/
theorem expect_response_resync (specs : List FieldSpec)
    (bads : List (List Char)) (good : List Char) (fields : List Field)
    (hbad : ∀ b ∈ bads, ∃ e, PlugwiseResponse.unserialize specs b = .error e ∧
      catchable e = true)
    (hgood : PlugwiseResponse.unserialize specs good = .ok fields) :
    Stick.expect_response specs (bads ++ [good]) (bads.length + 1) =
      .success fields := by
  induction bads with
  | nil => simp [Stick.expect_response, hgood]
  | cons b bs ih =>
    obtain ⟨e, he, hc⟩ := hbad b (by simp)
    have ihh := ih fun x hx => hbad x (by simp [hx])
    simpa [Stick.expect_response, he, hc] using ihh

/-- C6 witness: an empty frame (length mismatch) and an all-`A` frame (header
mismatch) are discarded; the following well-formed clock-info frame is
returned. -/
theorem expect_response_resync_witness :
    Stick.expect_response PlugwiseClockInfoResponse.params
      [[], List.replicate 48 'A', clockFrame] 3 = .success clockFields := by
  have h := expect_response_resync PlugwiseClockInfoResponse.params
    [[], List.replicate 48 'A'] clockFrame clockFields
    (by
      intro b hb
      simp only [List.mem_cons, List.not_mem_nil, or_false] at hb
      rcases hb with rfl | rfl
      · exact ⟨.lengthMismatch, rfl, rfl⟩
      · exact ⟨.brokenHeader, rfl, rfl⟩)
    rfl
  exact h

/-- A legal scalar value encodes to exactly its declared length. -/
theorem sfield_serialize_length (f : SField) (h : f.legal = true) :
    ∃ s, f.serialize = some s ∧ s.length = f.len := by
  cases f with
  | str v w =>
    refine ⟨v, rfl, ?_⟩
    simpa [SField.legal, SField.len] using h
  | int v w =>
    simp only [SField.legal, Bool.and_eq_true, decide_eq_true_eq] at h
    exact ⟨intSerialize w v, rfl, intSerialize_length w v h.1.1 h.1.2 h.2⟩
  | year2k v w =>
    simp only [SField.legal, Bool.and_eq_true, decide_eq_true_eq] at h
    exact ⟨intSerialize w v, rfl, intSerialize_length w v h.1.1 h.1.2 h.2⟩
  | unixTs v w =>
    simp only [SField.legal, Bool.and_eq_true, decide_eq_true_eq] at h
    exact ⟨intSerialize w v, rfl, intSerialize_length w v h.1.1 h.1.2 h.2⟩
  | logAddr v w =>
    simp only [SField.legal, Bool.and_eq_true, decide_eq_true_eq] at h
    exact ⟨intSerialize w v, rfl, intSerialize_length w v h.1.1 h.1.2 h.2⟩
  | float b w => simp [SField.legal] at h

/-- Legal children encode to the concatenation of their encodings, whose
length is the sum of the declared lengths. -/
theorem serializeContents_length (cs : List SField) (h : cs.all SField.legal = true) :
    ∃ s, serializeContents cs = some s ∧ s.length = contentsLen cs := by
  induction cs with
  | nil => exact ⟨[], rfl, rfl⟩
  | cons f fs ih =>
    simp only [List.all_cons, Bool.and_eq_true] at h
    obtain ⟨s1, hs1, hl1⟩ := sfield_serialize_length f h.1
    obtain ⟨s2, hs2, hl2⟩ := ih h.2
    refine ⟨s1 ++ s2, ?_, ?_⟩
    · simp [serializeContents, hs1, hs2]
    · simp [contentsLen, hl1, hl2]

/-- The recursive composite length is the sum of the children's lengths. -/
theorem contentsLen_eq_sum (cs : List SField) :
    contentsLen cs = (cs.map SField.len).sum := by
  induction cs with
  | nil => rfl
  | cons f fs ih => simp [contentsLen, ih]

/-- C8: every declared field with a legal value encodes to exactly its
declared length (integers zero-padded to their width), and a composite
field's declared length is the sum of its children's declared lengths. -/
theorem encoded_length_matches_declared :
    (∀ f : Field, f.legal = true → ∃ s, f.serialize = some s ∧ s.length = f.len) ∧
    (∀ (k : CompKind) (cs : List SField) (v : Option DTVal),
      (Field.composite k cs v).len = (cs.map SField.len).sum) := by
  constructor
  · intro f h
    cases f with
    | scalar sf => exact sfield_serialize_length sf (by simpa [Field.legal] using h)
    | composite k cs v =>
      exact serializeContents_length cs (by simpa [Field.legal] using h)
  · intro k cs v
    exact contentsLen_eq_sum cs

/-- C8 witness: the `DateTime` composite built from 2011-06, minute 100. -/
theorem encoded_length_matches_declared_witness :
    ∃ s, (DateTime.mk 2011 6 100).serialize = some s ∧
      s.length = (DateTime.mk 2011 6 100).len :=
  encoded_length_matches_declared.1 (DateTime.mk 2011 6 100) (by decide)

/-- C4: an 8-hex-digit DateTime slice whose parts parse as year offset `Y`,
month `M` and minutes-of-month `m`, and whose interpreted day-of-month is
valid, decodes to the calendar date-time with year `2000 + Y`, month `M`,
day `m / 1440`, hour `m % 1440 / 60` and minute `m % 60`. -/
theorem datetime_decode_fields (s : List Char) (Y M m : Nat)
    (hlen : s.length = 8)
    (hY : parseHex (s.take 2) = some Y)
    (hM : parseHex ((s.drop 2).take 2) = some M)
    (hm : parseHex ((s.drop 4).take 4) = some m)
    (hvalid : datetimeValid (Int.ofNat Y + 2000) (Int.ofNat M)
      (Int.ofNat (m / 1440)) (Int.ofNat (m % 1440 / 60)) (Int.ofNat (m % 60)) = true) :
    FieldSpec.unserialize DateTime.spec s =
      some (.composite .dateTime
        [.year2k (Int.ofNat Y + 2000) 2, .int (Int.ofNat M) 2, .int (Int.ofNat m) 4]
        (some (.dt (Int.ofNat Y + 2000) (Int.ofNat M) (Int.ofNat (m / 1440))
          (Int.ofNat (m % 1440 / 60)) (Int.ofNat (m % 60))))) := by
  have ht1 : (s.take 2).length = 2 := by rw [List.length_take]; omega
  have ht2 : ((s.drop 2).take 2).length = 2 := by
    rw [List.length_take, List.length_drop]; omega
  have ht3 : ((s.drop 4).take 4).length = 4 := by
    rw [List.length_take, List.length_drop]; omega
  have hA : ((m : Int)).fdiv 60 = ((m / 60 : Nat) : Int) := by
    exact_mod_cast (Int.ofNat_fdiv m 60).symm
  have hB : (((m / 60 : Nat) : Int)).fdiv 24 = ((m / 60 / 24 : Nat) : Int) := by
    exact_mod_cast (Int.ofNat_fdiv (m / 60) 24).symm
  have hdd : m / 60 / 24 = m / 1440 := by omega
  simp only [Int.ofNat_eq_natCast] at hvalid
  simp only [FieldSpec.unserialize, DateTime.spec, unserializeContents,
    SFieldSpec.unserialize, SFieldSpec.len, hY, hM, hm, ht1, ht2, ht3,
    List.drop_drop, Option.map_some', compositeValue]
  norm_num
  rw [hA, hB, hdd]
  have h3 : ((m / 60 : Nat) : Int) - ((m / 1440 : Nat) : Int) * 24
      = ((m % 1440 / 60 : Nat) : Int) := by omega
  have h4 : (m : Int) - (((m / 1440 : Nat) : Int) * 24 * 60 +
      ((m % 1440 / 60 : Nat) : Int) * 60) = ((m % 60 : Nat) : Int) := by omega
  refine ⟨?_, by omega, by omega, by omega⟩
  rw [h3, h4]
  exact hvalid

/-- C4 witness: slice `0B0607D0` — year offset 11, month 6, minutes 2000 —
decodes to 2011-06-01 09:20. -/
theorem datetime_decode_fields_witness :
    FieldSpec.unserialize DateTime.spec ((r"0B0607D0").data) =
      some (.composite .dateTime [.year2k 2011 2, .int 6 2, .int 2000 4]
        (some (.dt 2011 6 1 9 20))) := by
  have h := datetime_decode_fields ((r"0B0607D0").data) 11 6 2000 rfl rfl rfl rfl
    (by decide)
  exact h.trans (by decide)

end Plugwise

